import Mathlib

/-!
Verification of the booster repository (danielmorandini/booster).

This file shallowly embeds the parts of the source the claims talk about:

* the packet codec (network/packet/decoder.go, the wire format of spec §4.A
  for the encoder whose source file is not part of the sources),
* the control-plane handlers (booster/handlers.go),
* Wire (booster/booster.go),
* the SOCKS5 CONNECT front-end (socks5 package, Connect),
* the node-identifier computation (booster/booster.go, New and sha1Hash).

Bytes are modelled as natural numbers; byte streams as lists of naturals.
A Go map is modelled by a canonical association list kept sorted by key:
two Go maps are observationally equal exactly when they hold the same
key to value association, and iteration order of a Go map is unspecified,
so map values are identified with their canonical representative.
-/

namespace Booster

/-! ## Byte streams and primitive readers

The decoder reads from an io.Reader. io.ReadFull either fills the whole
buffer or fails; a TagReader (tagreader.go is not among the sources)
consumes the expected tag from the stream and fails unless the bytes
match.

Modelled from the spec: TagReader semantics, from §4.A: the decoder
"reads the opening tag, then exactly moduleCount modules in stream order,
then expects the closing tag"; a tag read consumes exactly the tag bytes
and succeeds only if they match. -/

/-- Read exactly the bytes of `tag` from the stream; return the rest of the
stream, or `none` if the stream does not start with `tag`. -/
def readTag : List Nat → List Nat → Option (List Nat)
  | [], s => some s
  | _ :: _, [] => none
  | t :: ts, b :: s => if b = t then readTag ts s else none

/-- io.ReadFull into a buffer of length `n`: read exactly `n` bytes or fail. -/
def readFull : Nat → List Nat → Option (List Nat × List Nat)
  | 0, s => some ([], s)
  | _ + 1, [] => none
  | n + 1, b :: s => (readFull n s).map fun p => (b :: p.1, p.2)

theorem readTag_append (tag rest : List Nat) : readTag tag (tag ++ rest) = some rest := by
  induction tag with
  | nil => rfl
  | cons t ts ih => simp [readTag, ih]

theorem readFull_append (l rest : List Nat) :
    readFull l.length (l ++ rest) = some (l, rest) := by
  induction l with
  | nil => rfl
  | cons b l ih => simp [readFull, ih]

/-! ## The packet data model

network/packet/packet.go is not among the sources; from decoder.go the
module holds a two byte id, a one byte encoding and a sized payload, and
the packet stores its modules in a Go map keyed by the module id
(`packet.modules[m.id] = m`). -/

/-- A module id: two bytes (module ids are two ASCII characters). -/
abbrev ModId := Nat × Nat

/-- A module: id, one byte encoding tag, payload bytes (decoder.go,
ModuleDecoder.Decode fills exactly these fields; size equals the payload
length). -/
structure Module where
  id : ModId
  encoding : Nat
  payload : List Nat
deriving DecidableEq, Repr

/-- The value a packet associates to a module id. -/
abbrev ModVal := Nat × List Nat

/-- Lexicographic strict order on module ids, used only to keep the
association list canonical. -/
def idLt (a b : ModId) : Bool :=
  a.1 < b.1 || (a.1 = b.1 && a.2 < b.2)

/-- Canonical model of the Go map `map[string]*Module`: an association
list kept sorted by key. Go map iteration order is unspecified, so a map
value is identified with its canonical (sorted) representative. -/
abbrev GoMap := List (ModId × ModVal)

/-- Go map write `packet.modules[m.id] = m`: replace the binding if the
key is present, otherwise insert at the sorted position. -/
def mapInsert (k : ModId) (v : ModVal) : GoMap → GoMap
  | [] => [(k, v)]
  | (k₂, v₂) :: g =>
    if k = k₂ then (k, v) :: g
    else if idLt k k₂ then (k, v) :: (k₂, v₂) :: g
    else (k₂, v₂) :: mapInsert k v g

/-- Go map read: the value bound to `k`, if any. -/
def mapLookup (k : ModId) : GoMap → Option ModVal
  | [] => none
  | (k₂, v₂) :: g => if k = k₂ then some v₂ else mapLookup k g

theorem mapLookup_mapInsert_self (k : ModId) (v : ModVal) (g : GoMap) :
    mapLookup k (mapInsert k v g) = some v := by
  induction g with
  | nil => simp [mapInsert, mapLookup]
  | cons p g ih =>
    by_cases h : k = p.1
    · simp [mapInsert, h, mapLookup]
    · by_cases hlt : idLt k p.1
      · simp [mapInsert, h, hlt, mapLookup]
      · simp [mapInsert, h, hlt, mapLookup, ih]

theorem mapLookup_mapInsert_ne (k j : ModId) (v : ModVal) (g : GoMap) (hne : j ≠ k) :
    mapLookup j (mapInsert k v g) = mapLookup j g := by
  induction g with
  | nil => simp [mapInsert, mapLookup, hne]
  | cons p g ih =>
    by_cases h : k = p.1
    · subst h
      simp [mapInsert, mapLookup, hne]
    · by_cases hlt : idLt k p.1
      · simp [mapInsert, h, hlt, mapLookup, hne]
      · by_cases hj : j = p.1
        · simp [mapInsert, h, hlt, mapLookup, hj]
        · simp [mapInsert, h, hlt, mapLookup, hj, ih]

/-! ## The decoder (network/packet/decoder.go) -/

/-- Decoder failures, one constructor per error return in decoder.go. -/
inductive DecodeError
  /-- packet: read open tag -/
  | openTag
  /-- packet: unable to read modules number -/
  | moduleCount
  /-- packet: read close tag, or unexpected closing tag -/
  | closeTag
  /-- module: unable to read module id -/
  | moduleId
  /-- module: read separator (first occurrence) -/
  | separatorA
  /-- module: unable to read payload size -/
  | payloadSize
  /-- module: read separator (second occurrence) -/
  | separatorB
  /-- module: unable to read encoding type -/
  | encodingType
  /-- module: read payload open tag -/
  | payloadOpenTag
  /-- module: unable to read payload -/
  | payloadShort
  /-- module: read payload close tag -/
  | payloadCloseTag
deriving DecidableEq, Repr

/-- The TagSet shared by encoder and decoder. Tag byte values are
implementation-chosen constants (spec §6); all results below hold for
every tag set. -/
structure TagSet where
  packetOpeningTag : List Nat
  packetClosingTag : List Nat
  payloadOpeningTag : List Nat
  payloadClosingTag : List Nat
  separator : List Nat
deriving DecidableEq, Repr

instance instDecEqExcept {ε α : Type} [DecidableEq ε] [DecidableEq α] :
    DecidableEq (Except ε α) := fun a b =>
  match a, b with
  | .ok x, .ok y =>
    if h : x = y then isTrue (congrArg Except.ok h)
    else isFalse fun hc => h (Except.ok.inj hc)
  | .error x, .error y =>
    if h : x = y then isTrue (congrArg Except.error h)
    else isFalse fun hc => h (Except.error.inj hc)
  | .ok _, .error _ => isFalse fun hc => Except.noConfusion hc
  | .error _, .ok _ => isFalse fun hc => Except.noConfusion hc

/-- Turn an optional read into a decoder step with the error of the
corresponding decoder.go return. -/
def orErr {α : Type} (o : Option α) (e : DecodeError) : Except DecodeError α :=
  match o with
  | some a => .ok a
  | none => .error e

/-- ModuleDecoder.Decode (decoder.go lines 105 to 161): module id (2
bytes), separator, payload size (uint16 big endian), separator, encoding
(1 byte), payload opening tag, payload (size bytes), payload closing
tag. -/
def moduleDecode (t : TagSet) (s : List Nat) : Except DecodeError (Module × List Nat) := do
  let (idb, s) ← orErr (readFull 2 s) .moduleId
  let s ← orErr (readTag t.separator s) .separatorA
  let (szb, s) ← orErr (readFull 2 s) .payloadSize
  -- m.size = uint16(buf[0])<<8 | uint16(buf[1])
  let size := szb.headI * 256 + (szb.drop 1).headI
  let s ← orErr (readTag t.separator s) .separatorB
  let (eb, s) ← orErr (readFull 1 s) .encodingType
  let s ← orErr (readTag t.payloadOpeningTag s) .payloadOpenTag
  let (pl, s) ← orErr (readFull size s) .payloadShort
  let s ← orErr (readTag t.payloadClosingTag s) .payloadCloseTag
  .ok (⟨(idb.headI, (idb.drop 1).headI), eb.headI, pl⟩, s)

/-- The loop of Decoder.Decode (decoder.go lines 63 to 89): while the
module counter is not exhausted decode a module and store it in the
packet map (`packet.modules[m.id] = m`); once exhausted, read the packet
closing tag. -/
def decodeModules (t : TagSet) : Nat → List Nat → GoMap → Except DecodeError (GoMap × List Nat)
  | 0, s, acc =>
    match readTag t.packetClosingTag s with
    | some s => .ok (acc, s)
    | none => .error .closeTag
  | n + 1, s, acc => do
    let (m, s) ← moduleDecode t s
    decodeModules t n s (mapInsert m.id (m.encoding, m.payload) acc)

/-- Decoder.Decode (decoder.go lines 43 to 90): packet opening tag,
module count (uint16 big endian, `int(buf[0])<<8 | int(buf[1])`), then
the module loop. Returns the decoded module map and the rest of the
stream. -/
def packetDecode (t : TagSet) (s : List Nat) : Except DecodeError (GoMap × List Nat) := do
  let s ← orErr (readTag t.packetOpeningTag s) .openTag
  let (cb, s) ← orErr (readFull 2 s) .moduleCount
  let mn := cb.headI * 256 + (cb.drop 1).headI
  decodeModules t mn s []

/-! ## The encoder

Modelled from the spec: encoder.go is not among the sources. Wire format
of one packet from §4.A:

PacketOpen, moduleCount as uint16 big endian, then for each module in
stream order: moduleID (2 ASCII bytes), separator, size as uint16 big
endian, separator, encoding byte, PayloadOpen, payload bytes,
PayloadClose; finally PacketClose. -/

/-- Big endian bytes of a 16 bit value. -/
def u16be (n : Nat) : List Nat := [n / 256 % 256, n % 256]

/-- Modelled from the spec: the per-module wire image, §4.A. -/
def encodeModule (t : TagSet) (m : Module) : List Nat :=
  [m.id.1, m.id.2] ++ t.separator ++ u16be m.payload.length ++ t.separator ++
    [m.encoding] ++ t.payloadOpeningTag ++ m.payload ++ t.payloadClosingTag

/-- Modelled from the spec: the packet wire image, §4.A. The encoder
iterates the module map of the packet; `ms` is that enumeration (its order is
whatever order the Go map iteration produced). -/
def encodePacket (t : TagSet) (ms : List Module) : List Nat :=
  t.packetOpeningTag ++ u16be ms.length ++ (ms.map (encodeModule t)).flatten ++
    t.packetClosingTag

/-- The map a list of modules denotes when written into an empty Go map
in list order (later writes win), exactly what the decoder loop builds. -/
def modulesToMap (ms : List Module) : GoMap :=
  ms.foldl (fun g m => mapInsert m.id (m.encoding, m.payload) g) []

/-- The association a packet enumeration defines: the first module with
the given id (an enumeration of a map has no duplicate ids). -/
def enumLookup (ms : List Module) (i : ModId) : Option ModVal :=
  (ms.find? fun m => m.id == i).map fun m => (m.encoding, m.payload)

theorem readFull_two (a b : Nat) (s : List Nat) : readFull 2 (a :: b :: s) = some ([a, b], s) :=
  rfl

theorem readFull_one (a : Nat) (s : List Nat) : readFull 1 (a :: s) = some ([a], s) :=
  rfl

/-- Decoding the wire image of one module yields that module back and
leaves the rest of the stream untouched, provided the payload size fits
in the 16 bit size field. -/
theorem moduleDecode_encodeModule (t : TagSet) (m : Module) (rest : List Nat)
    (h : m.payload.length < 65536) :
    moduleDecode t (encodeModule t m ++ rest) = .ok (m, rest) := by
  have hsize : m.payload.length / 256 % 256 * 256 + m.payload.length % 256
      = m.payload.length := by omega
  simp only [encodeModule, u16be, List.append_assoc, List.cons_append, List.nil_append]
  simp [moduleDecode, readFull_two, readFull_one, readTag_append, orErr, hsize,
    readFull_append, Bind.bind, Except.bind]

/-- The decoder loop consumes the concatenated module images in stream
order, inserting each module into the map as it goes, and then consumes
the closing tag. -/
theorem decodeModules_encoded (t : TagSet) (ms : List Module) (acc : GoMap)
    (h : ∀ m ∈ ms, m.payload.length < 65536) :
    decodeModules t ms.length ((ms.map (encodeModule t)).flatten ++ t.packetClosingTag) acc
      = .ok (ms.foldl (fun g m => mapInsert m.id (m.encoding, m.payload) g) acc, []) := by
  induction ms generalizing acc with
  | nil =>
    have hc := readTag_append t.packetClosingTag []
    simp only [List.append_nil] at hc
    simp [decodeModules, hc]
  | cons m ms ih =>
    have hm : m.payload.length < 65536 := h m (List.mem_cons_self m ms)
    have hms : ∀ m₂ ∈ ms, m₂.payload.length < 65536 := fun m₂ hmem =>
      h m₂ (List.mem_cons_of_mem m hmem)
    simp only [List.map_cons, List.flatten_cons, List.append_assoc, List.length_cons]
    rw [decodeModules]
    simp [moduleDecode_encodeModule t m _ hm, ih _ hms, Bind.bind, Except.bind]

/-- Round trip at the map level: decoding the encoding of a packet
succeeds, consumes the whole stream, and yields the map obtained by
writing the modules into an empty Go map in stream order. -/
theorem packetDecode_encodePacket (t : TagSet) (ms : List Module)
    (hcount : ms.length < 65536)
    (hsz : ∀ m ∈ ms, m.payload.length < 65536) :
    packetDecode t (encodePacket t ms) = .ok (modulesToMap ms, []) := by
  have hmn : ms.length / 256 % 256 * 256 + ms.length % 256 = ms.length := by omega
  simp only [encodePacket, u16be, List.append_assoc, List.cons_append, List.nil_append]
  simp [packetDecode, readTag_append, orErr, readFull_two, hmn,
    decodeModules_encoded t ms [] hsz, modulesToMap, Bind.bind, Except.bind]

/-- Looking up a key in the map built by folding inserts over a
duplicate-free module list finds exactly the binding of that list. -/
theorem mapLookup_foldl_insert (ms : List Module) (acc : GoMap) (i : ModId)
    (hnodup : (ms.map Module.id).Nodup) :
    mapLookup i (ms.foldl (fun g m => mapInsert m.id (m.encoding, m.payload) g) acc)
      = match enumLookup ms i with
        | some v => some v
        | none => mapLookup i acc := by
  induction ms generalizing acc with
  | nil => simp [enumLookup]
  | cons m ms ih =>
    simp only [List.map_cons, List.nodup_cons] at hnodup
    obtain ⟨hni, hnd⟩ := hnodup
    by_cases hid : m.id = i
    · subst hid
      have hnone : ms.find? (fun m₂ => m₂.id == m.id) = none := by
        rw [List.find?_eq_none]
        intro m₂ hmem
        simp only [beq_iff_eq]
        intro heq
        exact hni (heq ▸ List.mem_map_of_mem Module.id hmem)
      simp only [List.foldl_cons, enumLookup, List.find?_cons, beq_self_eq_true]
      rw [ih _ hnd]
      simp [enumLookup, hnone, mapLookup_mapInsert_self]
    · have hne : (m.id == i) = false := by simp [hid]
      simp only [List.foldl_cons, enumLookup, List.find?_cons, hne]
      rw [ih _ hnd]
      cases hfind : ms.find? (fun m₂ => m₂.id == i) with
      | some v => simp [enumLookup, hfind]
      | none =>
        simp [enumLookup, hfind,
          mapLookup_mapInsert_ne m.id i (m.encoding, m.payload) acc (Ne.symm hid)]

/-- C1: encode then decode restores the module-id to (encoding, payload)
mapping exactly. `ms` is the enumeration of the module map of the packet that
the encoder iterates (no duplicate ids, since it enumerates a map); the
decoded packet binds every id of the packet to the same encoding and
payload and binds no other id. -/
theorem encode_decode_roundtrip_mapping (t : TagSet) (ms : List Module)
    (hcount : ms.length < 65536)
    (hsz : ∀ m ∈ ms, m.payload.length < 65536)
    (hnodup : (ms.map Module.id).Nodup) :
    packetDecode t (encodePacket t ms) = .ok (modulesToMap ms, []) ∧
      ∀ i : ModId, mapLookup i (modulesToMap ms) = enumLookup ms i := by
  refine ⟨packetDecode_encodePacket t ms hcount hsz, fun i => ?_⟩
  rw [modulesToMap, mapLookup_foldl_insert ms [] i hnodup]
  cases enumLookup ms i <;> simp [mapLookup]

/-- A concrete tag set of the shapes of §4.A (4 byte packet tags, 2 byte
payload tags, 1 byte separator), used for concrete evaluations. -/
def sampleTagSet : TagSet :=
  { packetOpeningTag := [1, 2, 3, 4]
    packetClosingTag := [5, 6, 7, 8]
    payloadOpeningTag := [11, 12]
    payloadClosingTag := [13, 14]
    separator := [9] }

/-- A concrete header-like module (id "HE"). -/
def sampleModuleHE : Module := ⟨(72, 69), 0, [104, 101, 97, 100]⟩

/-- A concrete payload-like module (id "PA"). -/
def sampleModulePA : Module := ⟨(80, 65), 0, [112, 108]⟩

/-- C1: a round trip encode then decode yields a packet whose module-id
to (encoding, payload) mapping is identical to the mapping of the original packet:
every module id appears with the same encoding byte and payload bytes,
and no other module id is bound. Quantified over every tag set and every
enumeration of the module map of the packet (the Go map enumeration has no
duplicate ids; module count and payload sizes fit the 16 bit wire
fields). -/
theorem C1_encode_decode_mapping (t : TagSet) (ms : List Module)
    (hcount : ms.length < 65536)
    (hsz : ∀ m ∈ ms, m.payload.length < 65536)
    (hnodup : (ms.map Module.id).Nodup) :
    ∃ g : GoMap, packetDecode t (encodePacket t ms) = .ok (g, []) ∧
      ∀ i : ModId, mapLookup i g = enumLookup ms i :=
  ⟨modulesToMap ms, encode_decode_roundtrip_mapping t ms hcount hsz hnodup⟩

theorem C1_encode_decode_mapping_witness :
    ([sampleModuleHE, sampleModulePA].length < 65536 ∧
      (∀ m ∈ [sampleModuleHE, sampleModulePA], m.payload.length < 65536) ∧
      ([sampleModuleHE, sampleModulePA].map Module.id).Nodup) ∧
    ∃ g : GoMap,
      packetDecode sampleTagSet (encodePacket sampleTagSet [sampleModuleHE, sampleModulePA])
        = .ok (g, []) ∧
      ∀ i : ModId, mapLookup i g = enumLookup [sampleModuleHE, sampleModulePA] i :=
  ⟨⟨by decide, by decide, by decide⟩,
    C1_encode_decode_mapping sampleTagSet [sampleModuleHE, sampleModulePA]
      (by decide) (by decide) (by decide)⟩

/-- C2 counterexample: module order does not survive the round trip. Two
wire streams carrying the same two modules in opposite orders are
different byte streams, yet they decode to the very same packet (the
decoder stores modules in a Go map, keyed by module id, and a Go map
retains no iteration order), so no iteration of the decoded packet can
reproduce the order the modules had on the wire. -/
theorem C2_order_lost_counterexample :
    encodePacket sampleTagSet [sampleModuleHE, sampleModulePA]
      ≠ encodePacket sampleTagSet [sampleModulePA, sampleModuleHE] ∧
    packetDecode sampleTagSet (encodePacket sampleTagSet [sampleModuleHE, sampleModulePA])
      = packetDecode sampleTagSet (encodePacket sampleTagSet [sampleModulePA, sampleModuleHE]) := by
  decide

/-- C2 amended: the decoder does process the modules in stream order —
the decoded map is exactly the result of performing the Go map write
`packet.modules[m.id] = m` once per module, in the order the modules
appear on the wire — but the destination is a map, so the order itself
is not retained by the decoded packet. -/
theorem C2_decoder_stream_order (t : TagSet) (ms : List Module)
    (hcount : ms.length < 65536)
    (hsz : ∀ m ∈ ms, m.payload.length < 65536) :
    packetDecode t (encodePacket t ms)
      = .ok (ms.foldl (fun g m => mapInsert m.id (m.encoding, m.payload) g) [], []) :=
  packetDecode_encodePacket t ms hcount hsz

theorem C2_decoder_stream_order_witness :
    ([sampleModuleHE, sampleModulePA].length < 65536 ∧
      ∀ m ∈ [sampleModuleHE, sampleModulePA], m.payload.length < 65536) ∧
    packetDecode sampleTagSet (encodePacket sampleTagSet [sampleModuleHE, sampleModulePA])
      = .ok ([sampleModuleHE, sampleModulePA].foldl
          (fun g m => mapInsert m.id (m.encoding, m.payload) g) [], []) :=
  ⟨⟨by decide, by decide⟩,
    C2_decoder_stream_order sampleTagSet [sampleModuleHE, sampleModulePA]
      (by decide) (by decide)⟩

/-! ## Control-plane message dispatch (booster/handlers.go, Booster.Handle)

The protocol package is not among the sources. Modelled from the spec:
the message kinds of §4.B (Hello, Connect, Disconnect, Heartbeat,
Notify, Inspect, TunnelEvent, Node, Bandwidth, CtrlRestart); their
numeric values never matter, only which of them the switch in
Booster.Handle names. -/

/-- Message kinds — the possible values of the packet header id. -/
inductive MessageID
  | hello
  | connect
  | disconnect
  | heartbeat
  | notify
  | inspect
  | tunnel
  | node
  | bandwidth
  | ctrlRestart
deriving DecidableEq, Repr

/-- The observable effects of the per-connection handler loop. -/
inductive HandlerAction
  /-- b.HandleConnect is invoked for the packet -/
  | handleConnect
  /-- b.HandleDisconnect is invoked for the packet -/
  | handleDisconnect
  /-- b.HandleHeartbeat is invoked for the packet -/
  | handleHeartbeat
  /-- b.HandleTunnel is invoked for the packet (connection is a booster Conn) -/
  | handleTunnel
  /-- the packet is discarded: this connection cannot tunnel packets -/
  | discardTunnel
  /-- go b.ServeStatus is started -/
  | serveStatus
  /-- go b.ServeInspect is started -/
  | serveInspect
  /-- the error is logged -/
  | logError
  /-- conn.Close() -/
  | closeConn
deriving DecidableEq, Repr

/-- The message ids the switch in Booster.Handle (handlers.go lines 49
to 73) names with a case of its own. -/
def handledMessages : List MessageID :=
  [.connect, .disconnect, .heartbeat, .tunnel, .notify, .inspect]

/-- The per-packet handler closure of Booster.Handle (handlers.go lines
42 to 76). `hdr` is the result of ExtractHeader: `none` models a header
extraction failure, `some id` a header whose id field is `id`.
`isBoosterConn` is the type assertion `conn.(*Conn)` of the tunnel case.
An `.error` return makes the loop close the connection. -/
def handlePacket (isBoosterConn : Bool) (hdr : Option MessageID) :
    Except Unit (List HandlerAction) :=
  match hdr with
  | none => .error ()
  | some mid =>
    match mid with
    | .connect => .ok [.handleConnect]
    | .disconnect => .ok [.handleDisconnect]
    | .heartbeat => .ok [.handleHeartbeat]
    | .tunnel => .ok [if isBoosterConn then .handleTunnel else .discardTunnel]
    | .notify => .ok [.serveStatus]
    | .inspect => .ok [.serveInspect]
    | _ => .error ()

/-- The consume loop of Booster.Handle (handlers.go lines 78 to 84):
process packets in arrival order; when the handler fails, log the error,
close the connection and return, processing nothing further. -/
def handleLoop (isBoosterConn : Bool) : List (Option MessageID) → List HandlerAction
  | [] => []
  | hdr :: rest =>
    match handlePacket isBoosterConn hdr with
    | .ok as => as ++ handleLoop isBoosterConn rest
    | .error _ => [.logError, .closeConn]

/-- C10: a packet whose header id is none of the handled message kinds
(Connect, Disconnect, Heartbeat, Tunnel, Notify, Inspect) makes the
per-connection handler log the error and close the whole connection, and
no later packet of the stream is processed: the result does not depend
on the rest of the stream at all. -/
theorem C10_unknown_message_closes_conn (isBoosterConn : Bool) (mid : MessageID)
    (rest : List (Option MessageID)) (hun : mid ∉ handledMessages) :
    handleLoop isBoosterConn (some mid :: rest) = [.logError, .closeConn] := by
  cases mid <;> simp [handledMessages] at hun <;>
    simp [handleLoop, handlePacket]

theorem C10_unknown_message_closes_conn_witness :
    (MessageID.node ∉ handledMessages) ∧
    handleLoop true (some .node :: [some .connect, some .heartbeat])
      = [.logError, .closeConn] :=
  ⟨by decide,
    C10_unknown_message_closes_conn true .node [some .connect, some .heartbeat] (by decide)⟩

/-! ## HandleDisconnect (booster/handlers.go lines 211 to 267)

The packet payload is modelled after PayloadDisconnect (a node id);
`none` models a packet that fails ValidatePacket, lacks the payload
module, or whose payload does not decode. Node ids are modelled as
naturals. The Conns map of the network (`Nets.Get(b.ID).Conns`) is the list
of (connection id, remote node) pairs. -/

/-- The remote node a booster connection points at; only the fields the
disconnect handler touches. -/
structure RNode where
  id : Nat
  toBeTraced : Bool
deriving DecidableEq, Repr

/-- Observable effects of HandleDisconnect, in execution order. -/
inductive DAction
  /-- fail(err): the error is logged, nothing is sent -/
  | logError
  /-- c.RemoteNode.ToBeTraced = false -/
  | clearToBeTraced (id : Nat)
  /-- c.Close(): the connection to the target node is closed -/
  | closeTargetConn (id : Nat)
  /-- conn.Send(p) where p is the Node packet composed from the remote node -/
  | sendNodeReply (n : RNode)
  /-- the deferred conn.Close() of the connection the request arrived on -/
  | closeRequestConn
deriving DecidableEq, Repr

/-- Look a connection up by node id in the Conns map of the network. -/
def connsLookup (id : Nat) : List (Nat × RNode) → Option RNode
  | [] => none
  | (k, n) :: rest => if id = k then some n else connsLookup id rest

/-- Booster.HandleDisconnect. The function body: validate and decode
(failure logs and returns), look the connection up by the payload id
(absence logs and returns), clear ToBeTraced, close the target
connection, compose and send a Node packet describing the disconnected
node. The Node packet composition (composeNode, handlers.go lines 257
to 261) and the send (lines 263 to 266) are fallible; `composeOk` and
`sendOk` are their outcomes, and either failure runs fail, which only
logs — a failed send delivers nothing. The deferred conn.Close() always
runs last, whichever exit is taken. -/
def HandleDisconnect (conns : List (Nat × RNode)) (pl : Option Nat)
    (composeOk sendOk : Bool) : List DAction :=
  let body : List DAction :=
    match pl with
    | none => [.logError]
    | some plID =>
      match connsLookup plID conns with
      | none => [.logError]
      | some n =>
        let pre : List DAction := [.clearToBeTraced n.id, .closeTargetConn plID]
        if !composeOk then pre ++ [.logError]
        else if !sendOk then pre ++ [.logError]
        else pre ++ [.sendNodeReply { n with toBeTraced := false }]
  body ++ [.closeRequestConn]

/-- On the found-id branch, a composeNode or send failure still clears
ToBeTraced and closes the target connection, but only logs: no reply
reaches the requester, and the deferred close of the request connection
runs (handlers.go lines 257 to 266). -/
theorem HandleDisconnect_reply_failure_logs (conns : List (Nat × RNode)) (plID : Nat)
    (n : RNode) (composeOk sendOk : Bool)
    (hfound : connsLookup plID conns = some n)
    (hfail : composeOk = false ∨ sendOk = false) :
    HandleDisconnect conns (some plID) composeOk sendOk
      = [.clearToBeTraced n.id, .closeTargetConn plID, .logError, .closeRequestConn] := by
  cases composeOk <;> cases sendOk <;> simp_all [HandleDisconnect, hfound]

/-- Whether an effect is a send to the requester. -/
def DAction.isSend : DAction → Bool
  | .sendNodeReply _ => true
  | _ => false

/-- Whether an effect closes a target connection. -/
def DAction.isCloseTarget : DAction → Bool
  | .closeTargetConn _ => true
  | _ => false

/-- C3 counterexample: a Disconnect for an id absent from the network
(empty Conns map, payload id 7, with composition and send both able to
succeed) produces no reply at all — in particular no error reply — and
does close the connection the request arrived on (the deferred
conn.Close() of handlers.go line 213). -/
theorem C3_unknown_peer_counterexample :
    ((HandleDisconnect [] (some 7) true true).filter DAction.isSend = [] ∧
      (HandleDisconnect [] (some 7) true true).filter DAction.isCloseTarget = []) ∧
    .closeRequestConn ∈ HandleDisconnect [] (some 7) true true := by
  decide

/-- C3 amended: when the payload id names no connection of the local
network, the handler fails with the unknown-identifier error — which is
only logged, not sent back to the requester — it neither touches nor
closes any target connection, sends no reply, and then closes the
connection over which the Disconnect request arrived (the handler always
closes the request connection when done). The reply machinery never
runs on this branch, so the result holds for every composition and send
outcome. -/
theorem C3_unknown_peer_behaviour (conns : List (Nat × RNode)) (plID : Nat)
    (composeOk sendOk : Bool) (habsent : connsLookup plID conns = none) :
    HandleDisconnect conns (some plID) composeOk sendOk
      = [.logError, .closeRequestConn] := by
  simp [HandleDisconnect, habsent]

theorem C3_unknown_peer_behaviour_witness :
    connsLookup 7 [(3, ⟨3, true⟩)] = none ∧
    HandleDisconnect [(3, ⟨3, true⟩)] (some 7) true true
      = [.logError, .closeRequestConn] :=
  ⟨by decide, C3_unknown_peer_behaviour [(3, ⟨3, true⟩)] 7 true true (by decide)⟩

/-- C5: a Disconnect whose payload id names a connection present in the
network clears the toBeTraced flag of the remote node (so the Tracer
will not revive it), closes that connection, and — when the Node packet
composition and the send succeed, the fallible steps of handlers.go
lines 257 to 266 — sends back a Node packet describing the disconnected
node; finally the deferred close of the request connection runs. -/
theorem C5_known_peer_disconnect (conns : List (Nat × RNode)) (plID : Nat) (n : RNode)
    (composeOk sendOk : Bool) (hfound : connsLookup plID conns = some n)
    (hcompose : composeOk = true) (hsend : sendOk = true) :
    HandleDisconnect conns (some plID) composeOk sendOk
      = [.clearToBeTraced n.id, .closeTargetConn plID,
          .sendNodeReply { n with toBeTraced := false }, .closeRequestConn] := by
  subst hcompose
  subst hsend
  simp [HandleDisconnect, hfound]

theorem C5_known_peer_disconnect_witness :
    (connsLookup 3 [(3, ⟨3, true⟩)] = some ⟨3, true⟩ ∧ true = true ∧ true = true) ∧
    HandleDisconnect [(3, ⟨3, true⟩)] (some 3) true true
      = [.clearToBeTraced 3, .closeTargetConn 3,
          .sendNodeReply ⟨3, false⟩, .closeRequestConn] :=
  ⟨⟨by decide, rfl, rfl⟩,
    C5_known_peer_disconnect [(3, ⟨3, true⟩)] 3 ⟨3, true⟩ true true (by decide) rfl rfl⟩

/-! ## HandleHeartbeat (booster/handlers.go lines 92 to 144)

Time instants are naturals; the wall clock at handler entry is a
parameter. PayloadHeartbeat follows the protobuf schema
(header.proto companions): id, hops, ttl.

Modelled from the spec: composeHeartbeat lives in a source file that is
not among the sources; per §4.G it "composes a new Heartbeat
\x7bid: fresh, hops: pl.hops+1, ttl: now+HeartbeatTTL\x7d", where now is the
clock when it is composed, that is after the wait until the received
TTL. The fresh id is a parameter of the model. -/

/-- PayloadHeartbeat: unique message id, hop count, time to live. -/
structure PayloadHeartbeat where
  id : Nat
  hops : Nat
  ttl : Nat
deriving DecidableEq, Repr

/-- Observable effects of HandleHeartbeat, in execution order. -/
inductive HBAction
  /-- fail(err): log, then conn.Close() -/
  | closeConn
  /-- c.HeartbeatTimer.Stop() -/
  | stopTimer
  /-- the wait on time.After(pl.TTL.Sub(time.Now())): sleep until the instant -/
  | waitUntil (t : Nat)
  /-- c.HeartbeatTimer.Reset(d) -/
  | resetTimer (d : Nat)
  /-- conn.Send of the composed heartbeat packet -/
  | sendHeartbeat (p : PayloadHeartbeat)
deriving DecidableEq, Repr

/-- Booster.HandleHeartbeat. `now` is the clock at entry, `heartbeatTTL`
is b.HeartbeatTTL, `freshID` the id composeHeartbeat generates; `pl` is
`none` when validation, module extraction or payload decoding fails
(each of which calls fail, closing the connection). On a TTL earlier
than the clock the handler fails too. Otherwise it stops the receive
side timer, sleeps until the TTL instant (after which the clock reads
`pl.ttl`), resets the timer to twice the heartbeat TTL, composes the new
heartbeat and sends it. The composition (handlers.go lines 133 to 137)
and the send (lines 140 to 143) are fallible; `composeOk` and `sendOk`
are their outcomes, and either failure runs fail, which logs and closes
the connection — a failed send delivers nothing. -/
def HandleHeartbeat (now heartbeatTTL freshID : Nat) (composeOk sendOk : Bool)
    (pl : Option PayloadHeartbeat) : List HBAction :=
  match pl with
  | none => [.closeConn]
  | some pl =>
    if pl.ttl < now then [.closeConn]
    else
      let pre : List HBAction :=
        [.stopTimer, .waitUntil pl.ttl, .resetTimer (heartbeatTTL * 2)]
      if !composeOk then pre ++ [.closeConn]
      else if !sendOk then pre ++ [.closeConn]
      else pre ++
        [.sendHeartbeat { id := freshID, hops := pl.hops + 1, ttl := pl.ttl + heartbeatTTL }]

/-- On a timely heartbeat, a composition or send failure still stops the
timer, waits and resets it, but then fail closes the connection and no
heartbeat goes out (handlers.go lines 133 to 143). -/
theorem HandleHeartbeat_compose_or_send_failure_closes (now heartbeatTTL freshID : Nat)
    (composeOk sendOk : Bool) (pl : PayloadHeartbeat) (htimely : ¬pl.ttl < now)
    (hfail : composeOk = false ∨ sendOk = false) :
    HandleHeartbeat now heartbeatTTL freshID composeOk sendOk (some pl)
      = [.stopTimer, .waitUntil pl.ttl, .resetTimer (heartbeatTTL * 2), .closeConn] := by
  cases composeOk <;> cases sendOk <;> simp_all [HandleHeartbeat]

/-- C4: a heartbeat whose TTL lies before the clock closes the
connection; otherwise the handler stops the receive-side timer, waits
until the TTL instant, restarts the timer with duration twice the
heartbeat TTL, and — when the heartbeat composition and the send
succeed, the fallible steps of handlers.go lines 133 to 143 — sends
back a heartbeat with a fresh id, the received hop count plus one, and
a TTL of the clock after the wait (the TTL instant) plus the heartbeat
TTL. -/
theorem C4_heartbeat_handler (now heartbeatTTL freshID : Nat) (composeOk sendOk : Bool)
    (pl : PayloadHeartbeat) (hcompose : composeOk = true) (hsend : sendOk = true) :
    HandleHeartbeat now heartbeatTTL freshID composeOk sendOk (some pl)
      = if pl.ttl < now then [.closeConn]
        else
          [.stopTimer, .waitUntil pl.ttl, .resetTimer (2 * heartbeatTTL),
            .sendHeartbeat
              { id := freshID, hops := pl.hops + 1, ttl := pl.ttl + heartbeatTTL }] := by
  subst hcompose
  subst hsend
  simp [HandleHeartbeat, Nat.mul_comm]

theorem C4_heartbeat_handler_witness :
    (true = true ∧ true = true) ∧
    HandleHeartbeat 5 8 1 true true (some ⟨2, 3, 9⟩)
      = [.stopTimer, .waitUntil 9, .resetTimer 16, .sendHeartbeat ⟨1, 4, 17⟩] := by
  refine ⟨⟨rfl, rfl⟩, ?_⟩
  have h := C4_heartbeat_handler 5 8 1 true true ⟨2, 3, 9⟩ rfl rfl
  simpa using h

/-! ## Wire (booster/booster.go lines 304 to 365)

The fallible collaborators of Wire — DialContext, Network.AddConn, the
Notify packet composition, the two sends and the heartbeat composition —
are not among the sources (network and protocol packages); each is
modelled by the outcome Wire observes from it. -/

/-- Outcomes Wire observes from its collaborators: the dial result
(`none` is a dial error, `some c` a connection identified by `c`), and
success of AddConn, of the Notify packet composition, of the Notify
send, of the heartbeat composition and of the heartbeat send. -/
structure WireOracle where
  dialResult : Option Nat
  addConnOk : Bool
  encodeNotifyOk : Bool
  sendNotifyOk : Bool
  composeHeartbeatOk : Bool
  sendHeartbeatOk : Bool
deriving DecidableEq, Repr

/-- Observable effects of Wire, in execution order. -/
inductive WAction
  /-- the connection is installed in the network (b.Net().AddConn) -/
  | addConn (c : Nat)
  /-- the Notify packet is sent on the new connection -/
  | sendNotify
  /-- the initial heartbeat packet is sent on the new connection -/
  | sendHeartbeat
  /-- time.AfterFunc(d, ...): the heartbeat timer is started with duration d -/
  | startTimer (d : Nat)
  /-- conn.RemoteNode.SetIsActive(true) -/
  | setActive
  /-- conn.RemoteNode.ToBeTraced = true -/
  | setToBeTraced
  /-- go b.Handle(ctx, conn): the new connection is handled -/
  | handleConn
  /-- fail: conn.Close() of the half-opened connection -/
  | closeConn
deriving DecidableEq, Repr

/-- The result of Wire: the effects in order, the returned connection
(`none` together with an error on failure). -/
structure WireResult where
  actions : List WAction
  conn : Option Nat
  errored : Bool
deriving DecidableEq, Repr

/-- The callback time.AfterFunc runs when the heartbeat timer fires
(booster.go lines 349 to 355): close the connection unless it was
already torn down (conn.Conn == nil). `connOpen` is whether the
underlying connection still exists; the result is whether the callback
closes it. -/
def heartbeatTimerCallback (connOpen : Bool) : Bool :=
  connOpen

/-- Booster.Wire. A dial error returns the error directly (no connection
exists yet); every later failure runs fail, which closes the half-opened
connection and returns the error. On success the connection is
installed, Notify and the initial heartbeat are sent, the heartbeat
timer is started with twice the heartbeat TTL, the remote node is marked
active and traced, and the connection is handled. -/
def Wire (heartbeatTTL : Nat) (o : WireOracle) : WireResult :=
  match o.dialResult with
  | none => { actions := [], conn := none, errored := true }
  | some c =>
    if !o.addConnOk then
      { actions := [.closeConn], conn := none, errored := true }
    else if !o.encodeNotifyOk then
      { actions := [.addConn c, .closeConn], conn := none, errored := true }
    else if !o.sendNotifyOk then
      { actions := [.addConn c, .closeConn], conn := none, errored := true }
    else if !o.composeHeartbeatOk then
      { actions := [.addConn c, .sendNotify, .closeConn], conn := none, errored := true }
    else if !o.sendHeartbeatOk then
      { actions := [.addConn c, .sendNotify, .closeConn], conn := none, errored := true }
    else
      { actions := [.addConn c, .sendNotify, .sendHeartbeat,
          .startTimer (heartbeatTTL * 2), .setActive, .setToBeTraced, .handleConn]
        conn := some c
        errored := false }

/-- C6: when every step succeeds, Wire installs the dialed connection in
the network, sends Notify, sends the initial heartbeat, starts the
heartbeat timer with duration twice the heartbeat TTL — whose firing
closes the connection while it is open — and marks the remote node
active and to be traced; when any step after the dial fails (AddConn
rejection, packet composition failure or send failure), Wire closes the
half-opened connection and returns an error with no connection. -/
theorem C6_wire (heartbeatTTL : Nat) (o : WireOracle) (c : Nat)
    (hdial : o.dialResult = some c) :
    (o.addConnOk ∧ o.encodeNotifyOk ∧ o.sendNotifyOk ∧ o.composeHeartbeatOk ∧
        o.sendHeartbeatOk →
      Wire heartbeatTTL o
        = { actions := [.addConn c, .sendNotify, .sendHeartbeat,
              .startTimer (2 * heartbeatTTL), .setActive, .setToBeTraced, .handleConn]
            conn := some c
            errored := false } ∧
      heartbeatTimerCallback true = true) ∧
    (¬(o.addConnOk ∧ o.encodeNotifyOk ∧ o.sendNotifyOk ∧ o.composeHeartbeatOk ∧
        o.sendHeartbeatOk) →
      (Wire heartbeatTTL o).errored = true ∧ (Wire heartbeatTTL o).conn = none ∧
        .closeConn ∈ (Wire heartbeatTTL o).actions) := by
  constructor
  · rintro ⟨h1, h2, h3, h4, h5⟩
    simp [Wire, hdial, h1, h2, h3, h4, h5, heartbeatTimerCallback, Nat.mul_comm]
  · intro hfail
    by_cases h1 : o.addConnOk <;> by_cases h2 : o.encodeNotifyOk <;>
      by_cases h3 : o.sendNotifyOk <;> by_cases h4 : o.composeHeartbeatOk <;>
      by_cases h5 : o.sendHeartbeatOk <;>
      simp_all [Wire, hdial]

theorem C6_wire_witness :
    ((⟨some 4, true, true, true, true, true⟩ : WireOracle).dialResult = some 4) ∧
    Wire 8 ⟨some 4, true, true, true, true, true⟩
      = { actions := [.addConn 4, .sendNotify, .sendHeartbeat, .startTimer 16,
            .setActive, .setToBeTraced, .handleConn]
          conn := some 4
          errored := false } ∧
    heartbeatTimerCallback true = true := by
  refine ⟨rfl, ?_⟩
  have h := (C6_wire 8 ⟨some 4, true, true, true, true, true⟩ 4 rfl).1 (by simp)
  simpa using h

/-! ## Socks5.Connect (socks5 package)

The SOCKS5 byte constants of RFC 1928 (the const block of the socks5
package is not among the sources; values from RFC 1928, which §4.F and
§6 designate as the contract): version 5, reply codes success 0 and
host unreachable 4, reserved field 0, address types IPv4 1 and IPv6
4. -/

def socks5Version : Nat := 5

def socks5RespSuccess : Nat := 0

def socks5RespHostUnreachable : Nat := 4

def socks5FieldReserved : Nat := 0

def socks5IP4 : Nat := 1

def socks5IP6 : Nat := 4

/-- The local address of the dialed target connection: the IP (with its
To4() form when it is an IPv4 address) and the port. -/
structure TConn where
  ip4 : Option (List Nat)
  ip : List Nat
  port : Nat
deriving DecidableEq, Repr

/-- Errors Socks5.Connect returns. -/
inductive SErr
  /-- the dial error, returned as is -/
  | dial (e : Nat)
  /-- socks5: unable to write connect response -/
  | writeResponse
  /-- socks5: connect returned nil connection -/
  | nilConn
deriving DecidableEq, Repr

/-- The outcome of Socks5.Connect: the byte buffers successfully written
to the client connection, the returned target connection and the
returned error. -/
structure ConnectResult where
  written : List (List Nat)
  conn : Option TConn
  err : Option SErr
deriving DecidableEq, Repr

/-- Socks5.Connect. The dialer returns the pair (tconn, err); both
components may independently be absent, exactly the shape the source
guards against. `writeOk` is whether a write to the client connection
succeeds. Control flow of the source: on a dial error, append the
HostUnreachable reply code and the reserved field to the version byte
and write the buffer to the client (a failed write returns the write
error instead), then return the dial error with no connection; on a nil
connection without error, return the nil-connection error; otherwise
write the success reply carrying the bound address and return the
connection (the return value of that last write is ignored). -/
def socks5Connect (tconn : Option TConn) (dialErr : Option Nat) (writeOk : Bool) :
    ConnectResult :=
  let buf := [socks5Version]
  match dialErr with
  | some e =>
    let buf := buf ++ [socks5RespHostUnreachable, socks5FieldReserved]
    if writeOk then { written := [buf], conn := none, err := some (.dial e) }
    else { written := [], conn := none, err := some .writeResponse }
  | none =>
    match tconn with
    | none => { written := [], conn := none, err := some .nilConn }
    | some tc =>
      let buf := buf ++ [socks5RespSuccess, socks5FieldReserved]
      let buf :=
        match tc.ip4 with
        | some ip4 => buf ++ [socks5IP4] ++ ip4
        | none => buf ++ [socks5IP6] ++ tc.ip
      let buf := buf ++ [tc.port / 256 % 256, tc.port % 256]
      { written := if writeOk then [buf] else [], conn := some tc, err := none }

/-- C7: when the dispatcher dial fails, Socks5.Connect writes the reply
[version, HostUnreachable, reserved] to the client connection and
returns the dial error with no target connection. -/
theorem C7_dial_failure_host_unreachable (tconn : Option TConn) (e : Nat)
    (writeOk : Bool) (hw : writeOk = true) :
    socks5Connect tconn (some e) writeOk
      = { written := [[socks5Version, socks5RespHostUnreachable, socks5FieldReserved]]
          conn := none
          err := some (.dial e) } := by
  subst hw
  simp [socks5Connect]

theorem C7_dial_failure_host_unreachable_witness :
    (true = true) ∧
    socks5Connect none (some 9) true
      = { written := [[socks5Version, socks5RespHostUnreachable, socks5FieldReserved]]
          conn := none
          err := some (.dial 9) } :=
  ⟨rfl, C7_dial_failure_host_unreachable none 9 true rfl⟩

/-- C9: Socks5.Connect never returns an absent target connection
together with an absent error: every outcome carries a connection or an
error, so a caller that sees no error may use the returned
connection. -/
theorem C9_no_nil_conn_without_error (tconn : Option TConn) (dialErr : Option Nat)
    (writeOk : Bool) :
    (socks5Connect tconn dialErr writeOk).conn.isSome = true ∨
      (socks5Connect tconn dialErr writeOk).err.isSome = true := by
  match dialErr with
  | some e => cases writeOk <;> simp [socks5Connect]
  | none =>
    match tconn with
    | none => simp [socks5Connect]
    | some tc => simp [socks5Connect]

/-! ## The node identifier (booster/booster.go, New lines 98 to 126 and
sha1Hash lines 407 to 414)

SHA-1 itself comes from the Go standard library, outside the sources:
the digest function is an abstract parameter, with the streaming API
modelled as hashing the concatenation of the written images. What the
repository contributes — and what is verified — is the pipeline around
it: decimal port strings, concatenation order, hex encoding. -/

/-- Decimal ASCII bytes of a natural number (strconv.Itoa). -/
def itoa (n : Nat) : List Nat :=
  if h : n < 10 then [48 + n]
  else itoa (n / 10) ++ [48 + n % 10]
decreasing_by
  exact Nat.div_lt_self (by omega) (by omega)

/-- Lowercase hexadecimal digit of a value below 16. -/
def hexDigit (n : Nat) : Nat :=
  if n < 10 then 48 + n else 87 + n

/-- The two lowercase hex digits of one byte, as fmt.Sprintf with the
hex verb prints each byte of a byte slice. -/
def hexByte (b : Nat) : List Nat :=
  [hexDigit (b / 16 % 16), hexDigit (b % 16)]

/-- Hex encoding of a byte string. -/
def hexEncode (bs : List Nat) : List Nat :=
  (bs.map hexByte).flatten

/-- sha1Hash (booster.go lines 407 to 414): write every image into the
hash and hex-print the digest. Writing images one after the other into
a streaming hash digests their concatenation; `sha1` is the abstract
digest function. -/
def sha1Hash (sha1 : List Nat → List Nat) (images : List (List Nat)) : List Nat :=
  hexEncode (sha1 (images.foldl (· ++ ·) []))

/-- The id computed by New (booster.go line 108):
sha1Hash([]byte(strconv.Itoa(pport)), []byte(strconv.Itoa(bport))). -/
def newBoosterID (sha1 : List Nat → List Nat) (pport bport : Nat) : List Nat :=
  sha1Hash sha1 [itoa pport, itoa bport]

/-- The id as the claim words it: the hexadecimal encoding of the SHA-1
digest of the decimal proxy-port string concatenated with the decimal
booster-port string. -/
def specNodeID (sha1 : List Nat → List Nat) (pport bport : Nat) : List Nat :=
  hexEncode (sha1 (itoa pport ++ itoa bport))

/-- C8: the local node identifier is exactly the hex encoding of the
SHA-1 digest of the decimal proxy-port string followed by the decimal
booster-port string, and it is stable: two Booster instances created
with the same pport and bport compute the same id. -/
theorem C8_node_id (sha1 : List Nat → List Nat) (pport bport pport₂ bport₂ : Nat)
    (hp : pport₂ = pport) (hb : bport₂ = bport) :
    newBoosterID sha1 pport bport = specNodeID sha1 pport bport ∧
      newBoosterID sha1 pport₂ bport₂ = newBoosterID sha1 pport bport := by
  subst hp
  subst hb
  exact ⟨by simp [newBoosterID, specNodeID, sha1Hash], rfl⟩

theorem C8_node_id_witness :
    (1080 = 1080 ∧ 4884 = 4884) ∧
    (newBoosterID id 1080 4884 = specNodeID id 1080 4884 ∧
      newBoosterID id 1080 4884 = newBoosterID id 1080 4884) :=
  ⟨⟨rfl, rfl⟩, C8_node_id id 1080 4884 1080 4884 rfl rfl⟩

end Booster
